import Mathlib

/-!
# SupplierVault — shallow embedding of `src/server.js`

This file embeds the server's data model and request handlers as pure Lean
functions and proves the specification's claims about them.

Conventions of the embedding:
* JSON/JS request-body values are modelled by `JsVal` (undefined / null /
  string), so that JavaScript's distinction between an omitted field, an
  explicit `null`, and a string survives the translation.
* The relational store is modelled as in-memory lists of rows; `SERIAL`
  columns are modelled by an explicit next-id counter where a claim needs
  the generated id.
* Timestamps are `Nat` milliseconds (as produced by `Date.now()`).
* SQL `LIKE` is modelled by the standard wildcard matcher `likeMatch`
  (`%` = any sequence, `_` = any single character); `LOWER` is modelled by
  mapping `Char.toLower`.
-/

namespace SupplierVault

/-- A JavaScript request-body field value: `undefined` (absent), `null`,
or a string. -/
inductive JsVal where
  | undef : JsVal
  | null : JsVal
  | str : String → JsVal
deriving DecidableEq, Repr

/-- JavaScript falsiness restricted to the values of `JsVal`:
`undefined`, `null` and the empty string are falsy. -/
def JsVal.falsy : JsVal → Bool
  | .undef => true
  | .null => true
  | .str s => s == ""

/-- Strip leading and trailing whitespace from a character list. -/
def trimChars (l : List Char) : List Char :=
  ((l.dropWhile Char.isWhitespace).reverse.dropWhile Char.isWhitespace).reverse

/-- JavaScript `String.prototype.trim`, modelled structurally so that it
evaluates on concrete inputs. -/
def jsTrim (s : String) : String := ⟨trimChars s.data⟩

/-- JavaScript `v.trim()`: succeeds only on a string; on `null`/`undefined`
it throws a `TypeError`, modelled as `none`. -/
def JsVal.trimJs : JsVal → Option String
  | .str s => some (jsTrim s)
  | _ => none

/-- JavaScript `v ?? old` (nullish coalescing) for a string column:
`null` and `undefined` fall back to the old value. -/
def JsVal.coalesce : JsVal → String → String
  | .str s, _ => s
  | _, old => old

/-- A row of the `suppliers` table. -/
structure Supplier where
  id : Nat
  name : String
  product : String
  status : String
  note : String
  est_delivery : Option String
  added_at : Nat
deriving DecidableEq, Repr

/-- A row of the `delivery_history` table. -/
structure HistoryEntry where
  id : Nat
  name : String
  product : String
  note : String
  est_delivery : Option String
  added_at : Nat
  delivered_at : Nat
deriving DecidableEq, Repr

/-- Persistent-store state relevant to the supplier lifecycle: the
`suppliers` and `delivery_history` tables and the next `SERIAL` id of
`delivery_history`. -/
structure DB where
  suppliers : List Supplier
  history : List HistoryEntry
  nextHistId : Nat
deriving DecidableEq, Repr

/-- Outcome of an admin mutation endpoint, as far as the claims need it. -/
inductive ApiResult where
  | ok : ApiResult
  | notFound : ApiResult
deriving DecidableEq, Repr

/-- Outcome of `POST /api/admin/suppliers`. -/
inductive AddResult where
  | validationError : String → AddResult
  | storageError : String → AddResult
  | created : Supplier → AddResult
deriving DecidableEq, Repr

/-- Request body of `POST /api/admin/suppliers`:
`const { name, product, note = '', est_delivery = null } = req.body`. -/
structure AddReq where
  name : JsVal
  product : JsVal
  note : JsVal
  est_delivery : JsVal
deriving DecidableEq, Repr

/-- `POST /api/admin/suppliers` (server.js:161-171).
Destructures the body with defaults `note = ''`, `est_delivery = null`,
rejects with 400 when `!name || !product`, then runs
`INSERT ... VALUES (name.trim(), product.trim(), note.trim(), est_delivery || null)`;
a thrown `TypeError` (e.g. `null.trim()`) is caught and mapped to the
generic 500 `Failed to add`. `status` and `added_at` take the table
defaults `on_hold` / `NOW()`; the new row receives the next serial id. -/
def addSupplier (db : List Supplier) (nextId now : Nat) (r : AddReq) :
    AddResult × List Supplier :=
  let note := if r.note = .undef then JsVal.str "" else r.note
  let est := if r.est_delivery = .undef then JsVal.null else r.est_delivery
  if r.name.falsy || r.product.falsy then
    (.validationError "name and product required", db)
  else
    match r.name.trimJs, r.product.trimJs, note.trimJs with
    | some n, some p, some nt =>
      let esql : Option String :=
        if est.falsy then none
        else match est with
          | .str e => some e
          | _ => none
      let row : Supplier :=
        { id := nextId, name := n, product := p, status := "on_hold",
          note := nt, est_delivery := esql, added_at := now }
      (.created row, db ++ [row])
    | _, _, _ => (.storageError "Failed to add", db)

/-- Request body of `PATCH /api/admin/suppliers/:id`: each of the five
updatable fields may be absent, `null`, or a string. -/
structure UpdateReq where
  name : JsVal
  product : JsVal
  note : JsVal
  est_delivery : JsVal
  status : JsVal
deriving DecidableEq, Repr

/-- The new column values computed by the `UPDATE` statement of
`PATCH /api/admin/suppliers/:id` (server.js:180-183) from the fetched row
`s` and the request body: `name??s.name, product??s.product, note??s.note,
est_delivery!==undefined?(est_delivery||null):s.est_delivery,
status??s.status`. -/
def patchedRow (s : Supplier) (r : UpdateReq) (t : Supplier) : Supplier :=
  { id := t.id
    name := r.name.coalesce s.name
    product := r.product.coalesce s.product
    status := r.status.coalesce s.status
    note := r.note.coalesce s.note
    est_delivery :=
      match r.est_delivery with
      | .undef => s.est_delivery
      | .null => none
      | .str e => if e == "" then none else some e
    added_at := t.added_at }

/-- `PATCH /api/admin/suppliers/:id` (server.js:173-186).
Fetches the row (`SELECT * FROM suppliers WHERE id=$1`); 404 when absent;
otherwise updates every row matching the id with the coalesced values. -/
def updateSupplier (db : List Supplier) (sid : Nat) (r : UpdateReq) :
    ApiResult × List Supplier :=
  match db.find? (fun s => s.id == sid) with
  | none => (.notFound, db)
  | some s =>
    (.ok, db.map (fun t => if t.id == sid then patchedRow s r t else t))

/-- `DELETE /api/admin/suppliers/:id` (server.js:188-201).
Fetches the row; 404 when absent; otherwise inserts a `delivery_history`
row copying `name, product, note, est_delivery, added_at` (with
`delivered_at` defaulting to `NOW()` and a fresh serial id), then deletes
the supplier row. -/
def deleteSupplier (db : DB) (sid now : Nat) : ApiResult × DB :=
  match db.suppliers.find? (fun s => s.id == sid) with
  | none => (.notFound, db)
  | some s =>
    let h : HistoryEntry :=
      { id := db.nextHistId, name := s.name, product := s.product,
        note := s.note, est_delivery := s.est_delivery,
        added_at := s.added_at, delivered_at := now }
    (.ok,
     { suppliers := db.suppliers.filter (fun t => t.id != sid),
       history := db.history ++ [h],
       nextHistId := db.nextHistId + 1 })

/-- `DELETE /api/admin/history/:id` (server.js:211-216).
Runs `DELETE FROM delivery_history WHERE id=$1` unconditionally and
responds `{ok:true}` whether or not any row matched. -/
def deleteHistory (hist : List HistoryEntry) (hid : Nat) :
    ApiResult × List HistoryEntry :=
  (.ok, hist.filter (fun h => h.id != hid))

/-! ## Rate limiter (server.js:63-97) -/

def MAX_ATTEMPTS : Nat := 5
def WINDOW_MS : Nat := 15 * 60 * 1000
def LOCKOUT_MS : Nat := 30 * 60 * 1000

/-- A value of the `loginAttempts` map: `{ count, firstAttempt,
lockedUntil }`; `lockedUntil = 0` is the unset sentinel used by the code. -/
structure RLRecord where
  count : Nat
  firstAttempt : Nat
  lockedUntil : Nat
deriving DecidableEq, Repr

/-- The `loginAttempts` map, keyed by client IP. -/
def RLMap := List (String × RLRecord)

/-- `Map.get`. -/
def RLMap.get : RLMap → String → Option RLRecord
  | [], _ => none
  | (k, v) :: rest, ip => if k == ip then some v else RLMap.get rest ip

/-- `Map.set` (replace or append). -/
def RLMap.set : RLMap → String → RLRecord → RLMap
  | [], ip, r => [(ip, r)]
  | (k, v) :: rest, ip, r =>
    if k == ip then (k, r) :: rest else (k, v) :: RLMap.set rest ip r

/-- `Map.delete`. -/
def RLMap.del : RLMap → String → RLMap
  | [], _ => []
  | (k, v) :: rest, ip =>
    if k == ip then rest else (k, v) :: RLMap.del rest ip

/-- Result of `checkRateLimit`: `{ allowed }` or
`{ allowed: false, minutesLeft }`. -/
structure RLResult where
  allowed : Bool
  minutesLeft : Option Nat
deriving DecidableEq, Repr

/-- `checkRateLimit(ip)` (server.js:72-88), also returning the updated
`loginAttempts` map. `Math.ceil(d / 60000)` for `d : Nat` is
`(d + 59999) / 60000`. -/
def checkRateLimit (m : RLMap) (ip : String) (now : Nat) :
    RLResult × RLMap :=
  let data := (m.get ip).getD ⟨0, now, 0⟩
  if data.lockedUntil != 0 && now < data.lockedUntil then
    ({ allowed := false,
       minutesLeft := some ((data.lockedUntil - now + 59999) / 60000) }, m)
  else if WINDOW_MS < now - data.firstAttempt then
    ({ allowed := true, minutesLeft := none }, m.set ip ⟨0, now, 0⟩)
  else if MAX_ATTEMPTS ≤ data.count then
    ({ allowed := false, minutesLeft := some 30 },
     m.set ip { data with lockedUntil := now + LOCKOUT_MS })
  else
    ({ allowed := true, minutesLeft := none }, m)

/-- `recordFailedAttempt(ip)` (server.js:90-95). -/
def recordFailedAttempt (m : RLMap) (ip : String) (now : Nat) : RLMap :=
  let data := (m.get ip).getD ⟨0, now, 0⟩
  m.set ip { data with count := data.count + 1 }

/-- `clearAttempts(ip)` (server.js:97). -/
def clearAttempts (m : RLMap) (ip : String) : RLMap := m.del ip

/-- The locked-out state of a rate-limit record at time `now`:
`lockedUntil` is set and still in the future (the condition of the first
branch of `checkRateLimit`). -/
def lockedOut (r : RLRecord) (now : Nat) : Bool :=
  r.lockedUntil != 0 && now < r.lockedUntil

/-- The counting-window state of a rate-limit record at time `now`: at
least one attempt has been counted and the 15-minute window anchored at
`firstAttempt` has not yet elapsed. -/
def windowActive (r : RLRecord) (now : Nat) : Bool :=
  0 < r.count && now - r.firstAttempt ≤ WINDOW_MS

/-! ## Sessions (server.js:100-131) -/

/-- Outcome of `POST /api/logout`. -/
inductive LogoutResult where
  | ok : LogoutResult
  | unauthorized : LogoutResult
deriving DecidableEq, Repr

/-- `POST /api/logout` behind `requireAdmin` (server.js:102-106,128-131):
`requireAdmin` rejects with 401 when the `x-admin-token` header is missing,
empty (falsy) or not in `activeSessions`; otherwise the handler removes
the token from `activeSessions`. The header is `none` when absent. -/
def logout (sessions : List String) (token : Option String) :
    LogoutResult × List String :=
  match token with
  | none => (.unauthorized, sessions)
  | some t =>
    if t == "" then (.unauthorized, sessions)
    else if sessions.contains t then (.ok, sessions.erase t)
    else (.unauthorized, sessions)

/-! ## Public search (server.js:134-144) -/

/-- SQL `LIKE` wildcard matching on character lists: `%` matches any
sequence, `_` matches any single character, anything else matches itself. -/
def likeMatch (p s : List Char) : Bool :=
  match p, s with
  | [], [] => true
  | [], _ :: _ => false
  | c :: p', s =>
    if c = '%' then
      likeMatch p' s ||
        (match s with
         | [] => false
         | _ :: t => likeMatch (c :: p') t)
    else
      match s with
      | [] => false
      | d :: t => (if c = '_' then true else c == d) && likeMatch p' t
termination_by (p.length, s.length)

/-- `LOWER(x) LIKE LOWER(pat)`: lowercase both sides, then `LIKE`. -/
def sqlLike (pat x : String) : Bool :=
  likeMatch (pat.data.map Char.toLower) (x.data.map Char.toLower)

/-- The projection of a supplier row selected by the public search query:
`SELECT name, product, status, note, est_delivery, added_at` — no `id`. -/
structure PublicRow where
  name : String
  product : String
  status : String
  note : String
  est_delivery : Option String
  added_at : Nat
deriving DecidableEq, Repr

/-- Projection from a full supplier row to its public search row. -/
def publicProj (s : Supplier) : PublicRow :=
  { name := s.name, product := s.product, status := s.status,
    note := s.note, est_delivery := s.est_delivery, added_at := s.added_at }

/-- What `GET /api/search` does before touching the store: with an
empty/whitespace-only `q` it answers `[]` directly; otherwise it issues
the store query with the pattern `%query%` built from the trimmed query. -/
inductive SearchPlan where
  | noStore : List PublicRow → SearchPlan
  | storeQuery : String → SearchPlan
deriving DecidableEq, Repr

/-- The control flow of `GET /api/search` (server.js:134-144) up to the
store call: `const query = (req.query.q || '').trim(); if (!query) return
res.json([])`, else query the store with pattern `'%' + query + '%'`. -/
def searchHandler (q : String) : SearchPlan :=
  let query := jsTrim q
  if query == "" then .noStore []
  else .storeQuery ("%" ++ query ++ "%")

/-- The comparator realizing `ORDER BY added_at DESC`. -/
def byAddedDesc (a b : Supplier) : Bool := b.added_at ≤ a.added_at

/-- The store's answer to the search query: rows whose lowered `name`
matches the lowered pattern, ordered by `added_at` descending, projected
to the public columns. -/
def searchStoreQuery (db : List Supplier) (pat : String) : List PublicRow :=
  ((db.filter (fun s => sqlLike pat s.name)).mergeSort byAddedDesc).map
    publicProj

/-- End-to-end result of `GET /api/search`. -/
def runSearch (db : List Supplier) (q : String) : List PublicRow :=
  match searchHandler q with
  | .noStore rows => rows
  | .storeQuery pat => searchStoreQuery db pat

/-- Case-insensitive substring containment, the relation the spec claims
search implements: the lowered query occurs contiguously in the lowered
name. `hasSubstr s q` means `q` is a substring of `s`. -/
def hasSubstr (s q : List Char) : Bool :=
  match s with
  | [] => q.isEmpty
  | _ :: t => q.isPrefixOf s || hasSubstr t q

/-- The spec's search relation on strings: trimmed query, lowered both
sides, substring containment. -/
def specSearchMatch (q name : String) : Bool :=
  hasSubstr (name.data.map Char.toLower) (q.data.map Char.toLower)

/-- A character list containing no SQL `LIKE` metacharacter. -/
def metaFree (l : List Char) : Prop := ∀ c ∈ l, c ≠ '%' ∧ c ≠ '_'

/-! ## Theorems -/

/-! ### Helper lemmas about `LIKE` matching -/

theorem likeMatch_percent_any (s : List Char) : likeMatch ['%'] s = true := by
  induction s with
  | nil => simp [likeMatch]
  | cons d t ih => simp [likeMatch, ih]

theorem likeMatch_append_percent (q : List Char) (hq : metaFree q)
    (s : List Char) : likeMatch (q ++ ['%']) s = q.isPrefixOf s := by
  induction q generalizing s with
  | nil => simp [likeMatch_percent_any, List.isPrefixOf]
  | cons c q' ih =>
    obtain ⟨hc1, hc2⟩ := hq c (List.mem_cons_self c q')
    have hq' : metaFree q' := fun x hx => hq x (List.mem_cons_of_mem c hx)
    cases s with
    | nil => simp [likeMatch, hc1, List.isPrefixOf]
    | cons d t => simp [likeMatch, hc1, hc2, ih hq', List.isPrefixOf]

theorem likeMatch_wrap (q : List Char) (hq : metaFree q) (s : List Char) :
    likeMatch ('%' :: (q ++ ['%'])) s = hasSubstr s q := by
  induction s with
  | nil =>
    simp [likeMatch, likeMatch_append_percent q hq, hasSubstr]
    cases q <;> simp [List.isPrefixOf]
  | cons d t ih =>
    simp [likeMatch, likeMatch_append_percent q hq, hasSubstr, ih]

theorem isPrefixOf_iff_append (q : List Char) :
    ∀ s, q.isPrefixOf s = true ↔ ∃ r, s = q ++ r := by
  induction q with
  | nil => intro s; simp [List.isPrefixOf]
  | cons c q' ih =>
    intro s
    cases s with
    | nil => simp [List.isPrefixOf]
    | cons d t =>
      simp only [List.isPrefixOf, Bool.and_eq_true, beq_iff_eq, ih,
        List.cons_append, List.cons.injEq]
      constructor
      · rintro ⟨rfl, r, rfl⟩; exact ⟨r, rfl, rfl⟩
      · rintro ⟨r, rfl, rfl⟩; exact ⟨rfl, r, rfl⟩

/-- `hasSubstr` is substring containment: `q` occurs contiguously in
`s`. -/
theorem hasSubstr_iff (q : List Char) :
    ∀ s, hasSubstr s q = true ↔ ∃ l r, s = l ++ q ++ r := by
  intro s
  induction s with
  | nil =>
    simp only [hasSubstr, List.isEmpty_iff]
    constructor
    · rintro rfl; exact ⟨[], [], rfl⟩
    · rintro ⟨l, r, h⟩
      rcases List.append_eq_nil.1 h.symm with ⟨h1, h2⟩
      exact (List.append_eq_nil.1 h1).2
  | cons d t ih =>
    simp only [hasSubstr, Bool.or_eq_true, isPrefixOf_iff_append, ih]
    constructor
    · rintro (⟨r, h⟩ | ⟨l, r, rfl⟩)
      · exact ⟨[], r, by simpa using h⟩
      · exact ⟨d :: l, r, rfl⟩
    · rintro ⟨l, r, h⟩
      cases l with
      | nil => exact Or.inl ⟨r, by simpa using h⟩
      | cons x l' =>
        simp only [List.cons_append, List.cons.injEq] at h
        exact Or.inr ⟨l', r, h.2⟩

theorem toLower_meta (c : Char) (h : c ≠ '%' ∧ c ≠ '_') :
    Char.toLower c ≠ '%' ∧ Char.toLower c ≠ '_' := by
  simp only [Char.toLower]
  split
  · rename_i hc
    obtain ⟨h1, h2⟩ := hc
    constructor <;> intro heq
    · generalize hg : Char.toNat c = n at h1 h2 heq
      interval_cases n <;> exact absurd heq (by decide)
    · generalize hg : Char.toNat c = n at h1 h2 heq
      interval_cases n <;> exact absurd heq (by decide)
  · exact h

theorem metaFree_map_toLower (l : List Char) (h : metaFree l) :
    metaFree (l.map Char.toLower) := by
  intro c hc
  rcases List.mem_map.1 hc with ⟨d, hd, rfl⟩
  exact toLower_meta d (h d hd)

/-- For a metacharacter-free query `qt`, the store's
`LOWER(name) LIKE LOWER('%qt%')` is exactly case-insensitive substring
containment of `qt` in `name`. -/
theorem sqlLike_pattern_eq_substr (qt : String) (h : metaFree qt.data)
    (name : String) :
    sqlLike ("%" ++ qt ++ "%") name = specSearchMatch qt name := by
  have hdata : ("%" ++ qt ++ "%").data = '%' :: (qt.data ++ ['%']) := rfl
  unfold sqlLike specSearchMatch
  rw [hdata]
  have h1 : Char.toLower '%' = '%' := by decide
  simp only [List.map_cons, List.map_append, List.map_nil, h1]
  exact likeMatch_wrap _ (metaFree_map_toLower _ h) _

/-! ### Claim theorems (continued) -/

/-- C10: when `name` and `product` are non-empty strings but the `note`
field is present with value `null`, `POST /api/admin/suppliers` neither
succeeds nor answers 400: the destructuring default `note = ''` applies
only to an omitted note, `null` passes the `!name || !product` check
untouched, and `note.trim()` then throws inside the `try`, which the
handler maps to the generic 500 `Failed to add`; nothing is stored. -/
theorem addSupplier_null_note_storage_error (db : List Supplier)
    (nextId now : Nat) (n p : String) (est : JsVal)
    (hn : n ≠ "") (hp : p ≠ "") :
    addSupplier db nextId now ⟨.str n, .str p, .null, est⟩ =
      (.storageError "Failed to add", db) := by
  simp [addSupplier, JsVal.falsy, JsVal.trimJs, hn, hp]

/-- Witness for `addSupplier_null_note_storage_error` at a concrete
request. -/
theorem addSupplier_null_note_storage_error_witness :
    addSupplier [] 1 0 ⟨.str "Acme", .str "Widgets", .null, .undef⟩ =
      (.storageError "Failed to add", []) :=
  addSupplier_null_note_storage_error [] 1 0 "Acme" "Widgets" .undef
    (by decide) (by decide)

/-- C9 counterexample: `DELETE /api/admin/history/:id` on an id absent
from `delivery_history` answers `{ok:true}` (a silent no-op) — it does
not fail `NotFound` — whereas supplier delete on an absent id does fail
`NotFound`, so the claimed consistency fails on the code. -/
theorem deleteHistory_noop_counterexample :
    deleteHistory [] 1 = (.ok, []) ∧
    (deleteSupplier ⟨[], [], 1⟩ 1 0).1 = .notFound ∧
    ApiResult.ok ≠ ApiResult.notFound := by decide

/-- C9 amended: history delete always succeeds: it removes every history
row with the given id, keeps all other rows, and on an id absent from
the table it is an idempotent no-op that still answers ok — in contrast
to supplier delete, which fails `NotFound` on an absent id. -/
theorem deleteHistory_amended_spec (hist : List HistoryEntry) (hid : Nat) :
    (deleteHistory hist hid).1 = .ok ∧
    (∀ h ∈ (deleteHistory hist hid).2, h.id ≠ hid) ∧
    (∀ h ∈ hist, h.id ≠ hid → h ∈ (deleteHistory hist hid).2) ∧
    ((∀ h ∈ hist, h.id ≠ hid) → deleteHistory hist hid = (.ok, hist)) := by
  refine ⟨rfl, ?_, ?_, ?_⟩
  · intro h hm
    simp only [deleteHistory, List.mem_filter, bne_iff_ne, ne_eq] at hm
    exact hm.2
  · intro h hm hne
    simp only [deleteHistory, List.mem_filter, bne_iff_ne, ne_eq]
    exact ⟨hm, hne⟩
  · intro hall
    simp only [deleteHistory, Prod.mk.injEq, true_and]
    exact List.filter_eq_self.2 fun a ha => by simpa using hall a ha

/-- Witness for `deleteHistory_amended_spec`: deleting id 2 from a table
holding only id 1 is a successful no-op. -/
theorem deleteHistory_amended_spec_witness :
    deleteHistory [⟨1, "n", "p", "", none, 0, 0⟩] 2 =
      (.ok, [⟨1, "n", "p", "", none, 0, 0⟩]) :=
  (deleteHistory_amended_spec [⟨1, "n", "p", "", none, 0, 0⟩] 2).2.2.2
    (by decide)

/-- C4 counterexample: `POST /api/logout` with a token absent from the
session registry fails `Unauthorized` (the route sits behind
`requireAdmin`), so logout is not the claimed never-failing no-op. -/
theorem logout_not_idempotent_counterexample :
    logout [] (some "t") = (.unauthorized, []) ∧
    LogoutResult.unauthorized ≠ LogoutResult.ok := by decide

/-- C4 amended: logout only succeeds for a token currently in the
registry, in which case it removes it; a missing token or one absent
from the registry (including a token that was already logged out) fails
`Unauthorized` and leaves the registry unchanged, so logout is not
idempotent. -/
theorem logout_amended_spec (sessions : List String) (t : String)
    (hnd : sessions.Nodup) (ht : t ≠ "") :
    (t ∈ sessions →
      logout sessions (some t) = (.ok, sessions.erase t) ∧
      t ∉ (logout sessions (some t)).2 ∧
      (logout (logout sessions (some t)).2 (some t)).1 = .unauthorized) ∧
    (t ∉ sessions → logout sessions (some t) = (.unauthorized, sessions)) ∧
    logout sessions none = (.unauthorized, sessions) := by
  refine ⟨fun hm => ?_, fun hm => ?_, rfl⟩
  · have herase : t ∉ sessions.erase t := hnd.not_mem_erase
    refine ⟨by simp [logout, ht, hm], ?_, ?_⟩
    · simpa [logout, ht, hm] using herase
    · simp [logout, ht, hm, herase]
  · simp [logout, ht, hm]

/-- Witness for `logout_amended_spec` on a concrete registry. -/
theorem logout_amended_spec_witness :
    (("a" ∈ ["a", "b"] →
      logout ["a", "b"] (some "a") = (.ok, ["b"]) ∧
      "a" ∉ (logout ["a", "b"] (some "a")).2 ∧
      (logout (logout ["a", "b"] (some "a")).2 (some "a")).1 =
        LogoutResult.unauthorized) ∧
    ("a" ∉ ["a", "b"] →
      logout ["a", "b"] (some "a") = (.unauthorized, ["a", "b"])) ∧
    logout ["a", "b"] none = (.unauthorized, ["a", "b"])) :=
  logout_amended_spec ["a", "b"] "a" (by decide) (by decide)

/-- C2 counterexample: `add` with a whitespace-only name and non-empty
product does not fail `ValidationError`: the handler checks JavaScript
falsiness of the untrimmed values, `"  "` is truthy, so the supplier is
stored with its name trimmed to the empty string. -/
theorem add_whitespace_name_counterexample :
    jsTrim "  " = "" ∧
    addSupplier [] 1 0 ⟨.str "  ", .str "X", .undef, .undef⟩ =
      (.created ⟨1, "", "X", "on_hold", "", none, 0⟩,
       [⟨1, "", "X", "on_hold", "", none, 0⟩]) := by decide

/-- C2 amended: for string-valued `name`/`product` (with `note` a string
or omitted and `est_delivery` omitted), `add` fails `ValidationError`
exactly when `name` or `product` is the empty string before trimming —
a whitespace-only name passes validation and is stored trimmed to empty —
and otherwise stores the supplier with trimmed name, product and note
(note defaulting to the empty string when omitted), `est_delivery`
defaulting to null and `status` defaulting to `on_hold`, appending it to
the table. -/
theorem addSupplier_amended_spec (db : List Supplier) (nextId now : Nat)
    (n p : String) (note : Option String) :
    if n = "" ∨ p = "" then
      addSupplier db nextId now
          ⟨.str n, .str p,
           (match note with | some t => .str t | none => .undef), .undef⟩ =
        (.validationError "name and product required", db)
    else
      addSupplier db nextId now
          ⟨.str n, .str p,
           (match note with | some t => .str t | none => .undef), .undef⟩ =
        (.created ⟨nextId, jsTrim n, jsTrim p, "on_hold",
                   jsTrim (note.getD ""), none, now⟩,
         db ++ [⟨nextId, jsTrim n, jsTrim p, "on_hold",
                 jsTrim (note.getD ""), none, now⟩]) := by
  split
  · rename_i hcond
    rcases hcond with h | h <;>
      cases note <;> simp [addSupplier, JsVal.falsy, h]
  · rename_i hcond
    push_neg at hcond
    obtain ⟨hn, hp⟩ := hcond
    cases note <;>
      simp [addSupplier, JsVal.falsy, JsVal.trimJs, hn, hp]

/-- C1: supplier delete on a present id succeeds, appends a history
entry copying `name, product, note, est_delivery, added_at` from the
deleted supplier with `delivered_at` set at the archive moment, and
removes the supplier row (all other rows survive); on an absent id it
fails `NotFound` and changes nothing — in particular no history entry is
inserted. -/
theorem deleteSupplier_spec (db : DB) (sid now : Nat) :
    (∀ s, db.suppliers.find? (fun t => t.id == sid) = some s →
      (deleteSupplier db sid now).1 = .ok ∧
      (deleteSupplier db sid now).2.history =
        db.history ++
          [⟨db.nextHistId, s.name, s.product, s.note, s.est_delivery,
            s.added_at, now⟩] ∧
      (∀ t ∈ (deleteSupplier db sid now).2.suppliers, t.id ≠ sid) ∧
      (∀ t ∈ db.suppliers, t.id ≠ sid →
        t ∈ (deleteSupplier db sid now).2.suppliers)) ∧
    ((∀ s ∈ db.suppliers, s.id ≠ sid) →
      deleteSupplier db sid now = (.notFound, db)) := by
  constructor
  · intro s hfind
    refine ⟨?_, ?_, ?_, ?_⟩
    · simp [deleteSupplier, hfind]
    · simp [deleteSupplier, hfind]
    · intro t ht
      simp only [deleteSupplier, hfind, List.mem_filter, bne_iff_ne,
        ne_eq] at ht
      exact ht.2
    · intro t ht hne
      simp only [deleteSupplier, hfind, List.mem_filter, bne_iff_ne, ne_eq]
      exact ⟨ht, hne⟩
  · intro hall
    have hfind : db.suppliers.find? (fun t => t.id == sid) = none :=
      List.find?_eq_none.2 fun s hs => by simpa using hall s hs
    simp [deleteSupplier, hfind]

/-- Witness for `deleteSupplier_spec`: archiving the single supplier of a
concrete table, and `NotFound` on a missing id. -/
theorem deleteSupplier_spec_witness :
    (deleteSupplier ⟨[⟨7, "Acme", "W", "on_hold", "hi", some "2024-01-01",
        5⟩], [], 3⟩ 7 9).1 = ApiResult.ok ∧
    (deleteSupplier ⟨[⟨7, "Acme", "W", "on_hold", "hi", some "2024-01-01",
        5⟩], [], 3⟩ 7 9).2.history =
      [⟨3, "Acme", "W", "hi", some "2024-01-01", 5, 9⟩] ∧
    (deleteSupplier ⟨[⟨7, "Acme", "W", "on_hold", "hi", some "2024-01-01",
        5⟩], [], 3⟩ 8 9).1 = ApiResult.notFound := by
  have h1 := (deleteSupplier_spec ⟨[⟨7, "Acme", "W", "on_hold", "hi",
    some "2024-01-01", 5⟩], [], 3⟩ 7 9).1
    ⟨7, "Acme", "W", "on_hold", "hi", some "2024-01-01", 5⟩ (by decide)
  have h2 := (deleteSupplier_spec ⟨[⟨7, "Acme", "W", "on_hold", "hi",
    some "2024-01-01", 5⟩], [], 3⟩ 8 9).2 (by decide)
  exact ⟨h1.1, by simpa using h1.2.1, by simp [h2]⟩

/-- C6: a `PATCH` carrying only `status` changes only the status column
of the addressed supplier; its other columns and every other row are
untouched (stated for a table whose ids are distinct, as guaranteed by
the `SERIAL` primary key). -/
theorem updateSupplier_status_only (db : List Supplier) (sid : Nat)
    (st : String) (s : Supplier)
    (hfind : db.find? (fun t => t.id == sid) = some s)
    (hnd : (db.map Supplier.id).Nodup) :
    (updateSupplier db sid ⟨.undef, .undef, .undef, .undef, .str st⟩).1 =
      .ok ∧
    (updateSupplier db sid ⟨.undef, .undef, .undef, .undef, .str st⟩).2 =
      db.map (fun t => if t.id = sid then { t with status := st } else t)
    := by
  have hsmem : s ∈ db := List.mem_of_find?_eq_some hfind
  have hsid : s.id = sid := by simpa using List.find?_some hfind
  refine ⟨by simp [updateSupplier, hfind], ?_⟩
  simp only [updateSupplier, hfind]
  refine List.map_congr_left fun t htmem => ?_
  by_cases h : t.id = sid
  · have hts : t = s :=
      List.inj_on_of_nodup_map hnd htmem hsmem (by rw [h, hsid])
    subst hts
    simp [patchedRow, JsVal.coalesce, h]
  · simp [h]

/-- Witness for `updateSupplier_status_only` on a concrete two-row
table. -/
theorem updateSupplier_status_only_witness :
    (updateSupplier [⟨1, "a", "p", "on_hold", "n", none, 10⟩,
        ⟨2, "b", "q", "on_hold", "m", some "d", 20⟩] 1
        ⟨.undef, .undef, .undef, .undef, .str "shipped"⟩).2 =
      [⟨1, "a", "p", "shipped", "n", none, 10⟩,
       ⟨2, "b", "q", "on_hold", "m", some "d", 20⟩] := by
  have h := updateSupplier_status_only
    [⟨1, "a", "p", "on_hold", "n", none, 10⟩,
     ⟨2, "b", "q", "on_hold", "m", some "d", 20⟩] 1 "shipped"
    ⟨1, "a", "p", "on_hold", "n", none, 10⟩ (by decide) (by decide)
  simpa using h.2

/-- C3: `checkRateLimit` on a stored record: when locked and the lockout
is still in the future it denies with `minutesLeft` the ceiling of the
remaining milliseconds over 60000 (the ceiling property is stated as the
Galois characterization of ceiling division); when the window has
elapsed it resets the record to `⟨0, now, 0⟩` and allows; when the
attempt count has reached 5 it locks for 30 minutes and denies with
`minutesLeft = 30`; otherwise it allows without touching the map. -/
theorem checkRateLimit_spec (m : RLMap) (ip : String) (now : Nat)
    (r : RLRecord) (hr : m.get ip = some r) :
    (r.lockedUntil ≠ 0 → now < r.lockedUntil →
      checkRateLimit m ip now =
        ({ allowed := false,
           minutesLeft := some ((r.lockedUntil - now + 59999) / 60000) },
         m) ∧
      (∀ k, (r.lockedUntil - now + 59999) / 60000 ≤ k ↔
        r.lockedUntil - now ≤ 60000 * k)) ∧
    ((r.lockedUntil = 0 ∨ r.lockedUntil ≤ now) →
      WINDOW_MS < now - r.firstAttempt →
      checkRateLimit m ip now =
        ({ allowed := true, minutesLeft := none }, m.set ip ⟨0, now, 0⟩)) ∧
    ((r.lockedUntil = 0 ∨ r.lockedUntil ≤ now) →
      now - r.firstAttempt ≤ WINDOW_MS → MAX_ATTEMPTS ≤ r.count →
      checkRateLimit m ip now =
        ({ allowed := false, minutesLeft := some 30 },
         m.set ip ⟨r.count, r.firstAttempt, now + LOCKOUT_MS⟩)) ∧
    ((r.lockedUntil = 0 ∨ r.lockedUntil ≤ now) →
      now - r.firstAttempt ≤ WINDOW_MS → r.count < MAX_ATTEMPTS →
      checkRateLimit m ip now = ({ allowed := true, minutesLeft := none },
        m)) := by
  refine ⟨fun hne hlt => ⟨?_, fun k => ?_⟩, fun hlock hwin => ?_,
    fun hlock hwin hcnt => ?_, fun hlock hwin hcnt => ?_⟩
  · simp [checkRateLimit, hr, hne, hlt]
  · omega
  · have h : (r.lockedUntil != 0 && decide (now < r.lockedUntil)) = false
      := by
      rcases hlock with h0 | hle
      · simp [h0]
      · have hnlt : ¬ now < r.lockedUntil := Nat.not_lt.2 hle
        simp [hnlt]
    simp [checkRateLimit, hr, h, hwin]
  · have h : (r.lockedUntil != 0 && decide (now < r.lockedUntil)) = false
      := by
      rcases hlock with h0 | hle
      · simp [h0]
      · have hnlt : ¬ now < r.lockedUntil := Nat.not_lt.2 hle
        simp [hnlt]
    simp [checkRateLimit, hr, h, Nat.not_lt.2 hwin, hcnt]
  · have h : (r.lockedUntil != 0 && decide (now < r.lockedUntil)) = false
      := by
      rcases hlock with h0 | hle
      · simp [h0]
      · have hnlt : ¬ now < r.lockedUntil := Nat.not_lt.2 hle
        simp [hnlt]
    simp [checkRateLimit, hr, h, Nat.not_lt.2 hwin, Nat.not_le.2 hcnt]

/-- Witness for `checkRateLimit_spec`: a record locked until t=100000
queried at t=50 yields a 2-minute denial. -/
theorem checkRateLimit_spec_witness :
    checkRateLimit [("ip", ⟨0, 0, 100000⟩)] "ip" 50 =
      ({ allowed := false, minutesLeft := some 2 },
       [("ip", ⟨0, 0, 100000⟩)]) := by
  have h := (checkRateLimit_spec [("ip", ⟨0, 0, 100000⟩)] "ip" 50
    ⟨0, 0, 100000⟩ (by decide)).1 (by decide) (by decide)
  simpa using h.1

/-- C8 counterexample: a reachable rate-limiter state in which one IP's
record is simultaneously locked out and inside an active attempt window:
after five failures at t=0 and a denied check at t=60000, the record is
`⟨5, 0, 1860000⟩`, and at t=120000 both `lockedOut` and `windowActive`
hold for it. -/
theorem rl_states_not_exclusive_counterexample :
    (checkRateLimit
        (recordFailedAttempt (recordFailedAttempt (recordFailedAttempt
          (recordFailedAttempt (recordFailedAttempt [] "ip" 0) "ip" 0)
          "ip" 0) "ip" 0) "ip" 0) "ip" 60000).2.get "ip" =
      some ⟨5, 0, 1860000⟩ ∧
    lockedOut ⟨5, 0, 1860000⟩ 120000 = true ∧
    windowActive ⟨5, 0, 1860000⟩ 120000 = true := by decide

/-- C8 amended: the two states are behaviorally, not structurally,
exclusive: while `lockedUntil` is set and in the future, `checkRateLimit`
denies based solely on `lockedUntil` — its answer is the same for any two
records agreeing on `lockedUntil`, whatever their window fields — and it
leaves the map unchanged; but the locked record itself may still carry
an unexpired attempt window. -/
theorem rl_lockout_precedence (ip : String) (now : Nat) (m₁ m₂ : RLMap)
    (r₁ r₂ : RLRecord) (h₁ : m₁.get ip = some r₁) (h₂ : m₂.get ip = some r₂)
    (heq : r₁.lockedUntil = r₂.lockedUntil) (hl : lockedOut r₁ now = true) :
    (checkRateLimit m₁ ip now).1.allowed = false ∧
    (checkRateLimit m₁ ip now).2 = m₁ ∧
    (checkRateLimit m₂ ip now).2 = m₂ ∧
    (checkRateLimit m₁ ip now).1 = (checkRateLimit m₂ ip now).1 := by
  simp only [lockedOut, Bool.and_eq_true, bne_iff_ne, ne_eq,
    decide_eq_true_eq] at hl
  obtain ⟨hne, hlt⟩ := hl
  refine ⟨?_, ?_, ?_, ?_⟩ <;>
    simp [checkRateLimit, h₁, h₂, ← heq, hne, hlt]

/-- Witness for `rl_lockout_precedence`: two records with different
window fields but the same future `lockedUntil` get the same denial. -/
theorem rl_lockout_precedence_witness :
    (checkRateLimit [("ip", ⟨5, 0, 1000⟩)] "ip" 10).1.allowed = false ∧
    (checkRateLimit [("ip", ⟨5, 0, 1000⟩)] "ip" 10).2 =
      [("ip", ⟨5, 0, 1000⟩)] ∧
    (checkRateLimit [("ip", ⟨0, 999, 1000⟩)] "ip" 10).2 =
      [("ip", ⟨0, 999, 1000⟩)] ∧
    (checkRateLimit [("ip", ⟨5, 0, 1000⟩)] "ip" 10).1 =
      (checkRateLimit [("ip", ⟨0, 999, 1000⟩)] "ip" 10).1 :=
  rl_lockout_precedence "ip" 10 [("ip", ⟨5, 0, 1000⟩)]
    [("ip", ⟨0, 999, 1000⟩)] ⟨5, 0, 1000⟩ ⟨0, 999, 1000⟩
    (by decide) (by decide) (by decide) (by decide)

/-- C5 counterexample: the search query is embedded unescaped in the SQL
`LIKE` pattern, so its metacharacters keep their wildcard meaning: the
query `"_"` is returned a supplier named `"x"`, although `"_"` is not a
substring of `"x"` under any case folding. -/
theorem search_like_wildcard_counterexample :
    specSearchMatch (jsTrim "_") "x" = false ∧
    runSearch [⟨1, "x", "p", "on_hold", "", none, 0⟩] "_" =
      [⟨"x", "p", "on_hold", "", none, 0⟩] := by
  constructor
  · decide
  · simp [runSearch, searchHandler, searchStoreQuery, jsTrim, trimChars,
      sqlLike, likeMatch, publicProj]

/-- C5 amended: an empty or whitespace-only query answers `[]` without
touching the store; otherwise the handler issues the store query with
pattern `%query%` (trimmed query), and the result is exactly the
suppliers whose lowered name matches that `LIKE` pattern — which, for a
trimmed query free of the `LIKE` metacharacters `%` and `_`, is exactly
case-insensitive substring matching on `name` — projected to
`{name, product, status, note, est_delivery, added_at}` (no `id` field
exists in the projection) and ordered by `added_at` descending. -/
theorem search_amended_spec (db : List Supplier) (q : String) :
    (jsTrim q = "" → searchHandler q = .noStore [] ∧ runSearch db q = []) ∧
    (jsTrim q ≠ "" →
      searchHandler q = .storeQuery ("%" ++ jsTrim q ++ "%")) ∧
    (∀ row, row ∈ runSearch db q ↔
      jsTrim q ≠ "" ∧ ∃ s ∈ db,
        sqlLike ("%" ++ jsTrim q ++ "%") s.name = true ∧
        row = publicProj s) ∧
    List.Pairwise (fun a b : PublicRow => b.added_at ≤ a.added_at)
      (runSearch db q) ∧
    (metaFree (jsTrim q).data →
      ∀ row, row ∈ runSearch db q ↔
        jsTrim q ≠ "" ∧ ∃ s ∈ db,
          specSearchMatch (jsTrim q) s.name = true ∧
          row = publicProj s) := by
  have hmem : ∀ row, row ∈ runSearch db q ↔
      jsTrim q ≠ "" ∧ ∃ s ∈ db,
        sqlLike ("%" ++ jsTrim q ++ "%") s.name = true ∧
        row = publicProj s := by
    intro row
    by_cases hq : jsTrim q = ""
    · simp [runSearch, searchHandler, hq]
    · simp only [runSearch, searchHandler, searchStoreQuery,
        List.mem_map, List.mem_mergeSort, List.mem_filter, hq,
        if_neg, ne_eq, not_false_eq_true, true_and]
      rw [if_neg (by simpa using hq)]
      simp only [List.mem_map, List.mem_mergeSort, List.mem_filter]
      constructor
      · rintro ⟨s, ⟨hmems, hlike⟩, rfl⟩
        exact ⟨s, hmems, hlike, rfl⟩
      · rintro ⟨s, hmems, hlike, rfl⟩
        exact ⟨s, ⟨hmems, hlike⟩, rfl⟩
  have htrans : ∀ a b c : Supplier,
      byAddedDesc a b → byAddedDesc b c → byAddedDesc a c := by
    intro a b c hab hbc
    simp only [byAddedDesc, decide_eq_true_eq] at *
    omega
  have htotal : ∀ a b : Supplier, byAddedDesc a b || byAddedDesc b a := by
    intro a b
    simp only [byAddedDesc, Bool.or_eq_true, decide_eq_true_eq]
    omega
  refine ⟨fun hq => ⟨?_, ?_⟩, fun hq => ?_, hmem, ?_, fun hmf row => ?_⟩
  · simp [searchHandler, hq]
  · simp [runSearch, searchHandler, hq]
  · simp [searchHandler, hq]
  · by_cases hq : jsTrim q = ""
    · simp [runSearch, searchHandler, hq]
    · simp only [runSearch, searchHandler]
      rw [if_neg (by simpa using hq)]
      simp only [searchStoreQuery]
      refine List.Pairwise.map publicProj (fun a b h => ?_)
        (List.sorted_mergeSort htrans htotal
          (db.filter fun s => sqlLike ("%" ++ jsTrim q ++ "%") s.name))
      simpa [byAddedDesc, publicProj] using h
  · rw [hmem row]
    constructor
    · rintro ⟨hq, s, hmems, hlike, rfl⟩
      exact ⟨hq, s, hmems,
        by rw [← sqlLike_pattern_eq_substr (jsTrim q) hmf s.name]; exact
          hlike, rfl⟩
    · rintro ⟨hq, s, hmems, hlike, rfl⟩
      exact ⟨hq, s, hmems,
        by rw [sqlLike_pattern_eq_substr (jsTrim q) hmf s.name]; exact
          hlike, rfl⟩

/-- Witness for `search_amended_spec`: the query `"jo"` (metacharacter
free) matches the supplier named `"John Co"` case-insensitively. -/
theorem search_amended_spec_witness :
    (⟨"John Co", "w", "on_hold", "", none, 3⟩ : PublicRow) ∈
      runSearch [⟨1, "John Co", "w", "on_hold", "", none, 3⟩] "jo" := by
  have h := (search_amended_spec
    [⟨1, "John Co", "w", "on_hold", "", none, 3⟩] "jo").2.2.2.2
    (by unfold metaFree; decide)
    ⟨"John Co", "w", "on_hold", "", none, 3⟩
  exact h.mpr ⟨by decide, ⟨1, "John Co", "w", "on_hold", "", none, 3⟩,
    by simp, by decide, rfl⟩

end SupplierVault
